import Mathlib

/-!
Shallow embedding of the chunk streaming subsystem of the deus-vulkan
repository: the fixed-capacity `ChunkPool` (slot allocation, coordinate
indexing, eviction bookkeeping), the FIFO `ChunkQueue`, and the `Chonker`
orchestrator whose workers read sample blocks from the chunk file.

Sources embedded:
- src/source/engine/world/chunk.hpp        (Chunk coordinate)
- src/source/engine/world/chunk_data.hpp   (ChunkStatus, ChunkData)
- src/source/engine/world/chunk_pool.hpp   (ChunkPool)
- src/source/engine/world/chunk_queue.hpp  (ChunkQueue)
- src/source/engine/world/chonker.hpp      (Chonker)

Machine integers are modelled as `Int`/`Nat` (the traces considered stay far
from the 32/64-bit bounds); `std::unordered_map<Chunk, size_t>` is modelled
as an association list with insert-or-assign semantics; out-of-bounds vector
accesses (undefined behaviour in C++) make the modelled operation return
`none`.
-/

namespace DeusVulkan

/-- Chunk coordinate (chunk.hpp): `struct Chunk { i32 x{0}; i32 z{0}; }`. -/
structure Chunk where
  x : Int
  z : Int
deriving DecidableEq

/-- `CHUNK_RESOLUTION = 17` (chunk.hpp). -/
def CHUNK_RESOLUTION : Nat := 17

/-- `enum class ChunkStatus : u32 { Unloaded = 0, Loading = 1, Loaded = 2 }`
(chunk_data.hpp). -/
inductive ChunkStatus where
  | Unloaded
  | Loading
  | Loaded
deriving DecidableEq

/-- Number of height samples per chunk: `CHUNK_RESOLUTION * CHUNK_RESOLUTION`
(the size of `ChunkData::heights`). -/
def numSamples : Nat := CHUNK_RESOLUTION * CHUNK_RESOLUTION

/-- `struct ChunkData` (chunk_data.hpp): coordinate, per-record status field,
and the height array `std::array<i32, CHUNK_RESOLUTION*CHUNK_RESOLUTION>`.
Note the element type in the source is a 32-bit int (`core::i32`), not a
16-bit one. -/
structure ChunkData where
  chunk : Chunk
  status : ChunkStatus
  heights : List Int
deriving DecidableEq

/-- The value-initialized `ChunkData{}`: chunk `(0,0)`, status `Unloaded`,
heights all zero. -/
def ChunkData.zeroInit : ChunkData :=
  { chunk := ⟨0, 0⟩, status := ChunkStatus.Unloaded
    heights := List.replicate numSamples 0 }

/-- Lookup in the `std::unordered_map<Chunk, std::size_t>` model
(`contains`/`at`/`operator[]` read). -/
def mapLookup (m : List (Chunk × Nat)) (k : Chunk) : Option Nat :=
  match m with
  | [] => none
  | (k2, v) :: rest => if k2 = k then some v else mapLookup rest k

/-- Insert-or-assign (`m[k] = v`) in the map model. -/
def mapInsert (m : List (Chunk × Nat)) (k : Chunk) (v : Nat) :
    List (Chunk × Nat) :=
  match m with
  | [] => [(k, v)]
  | (k2, v2) :: rest =>
      if k2 = k then (k, v) :: rest else (k2, v2) :: mapInsert rest k v

/-- Erase (`m.erase(k)`) in the map model. -/
def mapErase (m : List (Chunk × Nat)) (k : Chunk) : List (Chunk × Nat) :=
  match m with
  | [] => []
  | (k2, v2) :: rest =>
      if k2 = k then rest else (k2, v2) :: mapErase rest k

/-- The `ChunkPool` state (chunk_pool.hpp): payload slots, per-slot atomic
status, the free stack `loadable`, the coordinate map `chunkToLoaded`, the
dense `loaded` list and the `loadedIndex` back-map. -/
structure ChunkPool where
  pool : List ChunkData
  status : List ChunkStatus
  loadable : List Nat
  chunkToLoaded : List (Chunk × Nat)
  loaded : List Nat
  loadedIndex : List Nat
deriving DecidableEq

/-- `ChunkPool::ChunkPool(capacity)`: all statuses `Unloaded`, `loadable`
filled with `0, 1, ..., capacity-1` (pushed back in order), empty map and
`loaded` list, `loadedIndex` value-initialized to zeros. -/
def ChunkPool.init (capacity : Nat) : ChunkPool :=
  { pool := List.replicate capacity ChunkData.zeroInit
    status := List.replicate capacity ChunkStatus.Unloaded
    loadable := List.range capacity
    chunkToLoaded := []
    loaded := []
    loadedIndex := List.replicate capacity 0 }

/-- `ChunkPool::request(chunk)`: if `loadable` is empty return; else pop the
back of `loadable` as `poolIndex`, set `chunkToLoaded[chunk] = poolIndex`,
set `loadedIndex[poolIndex] = loaded.size()`, push `poolIndex` onto
`loaded`, and store `Loading` into `status[poolIndex]`. (The source performs
no already-mapped check.) -/
def ChunkPool.request (c : Chunk) (p : ChunkPool) : ChunkPool :=
  match p.loadable.getLast? with
  | none => p
  | some poolIndex =>
      { p with
        loadable := p.loadable.dropLast
        chunkToLoaded := mapInsert p.chunkToLoaded c poolIndex
        loadedIndex := p.loadedIndex.set poolIndex p.loaded.length
        loaded := p.loaded ++ [poolIndex]
        status := p.status.set poolIndex ChunkStatus.Loading }

/-- `std::swap(l[i], l[j])` on a vector model; `none` when either index is
out of bounds (undefined behaviour in the source). -/
def listSwap (l : List Nat) (i j : Nat) : Option (List Nat) :=
  match l.get? i, l.get? j with
  | some a, some b => some ((l.set i b).set j a)
  | _, _ => none

/-- `ChunkPool::unload(chunk)`: no-op if the coordinate is unmapped; else
`poolIndex = chunkToLoaded[chunk]`, `ldIndex = loadedIndex[poolIndex]`,
erase the mapping, `prevIndex = loaded.back()`,
`std::swap(loaded[ldIndex], loaded[prevIndex])`, pop the back of `loaded`,
`loadedIndex[prevIndex] = ldIndex`, push `poolIndex` onto `loadable`, store
`Unloaded` into `status[poolIndex]`. `none` models an out-of-bounds access
(`back()` on an empty vector or a swap index past the vector size). -/
def ChunkPool.unload (c : Chunk) (p : ChunkPool) : Option ChunkPool :=
  match mapLookup p.chunkToLoaded c with
  | none => some p
  | some poolIndex =>
      match p.loadedIndex.get? poolIndex, p.loaded.getLast? with
      | some ldIndex, some prevIndex =>
          match listSwap p.loaded ldIndex prevIndex with
          | none => none
          | some swapped =>
              some { p with
                chunkToLoaded := mapErase p.chunkToLoaded c
                loaded := swapped.dropLast
                loadedIndex := p.loadedIndex.set prevIndex ldIndex
                loadable := p.loadable ++ [poolIndex]
                status := p.status.set poolIndex ChunkStatus.Unloaded }
      | _, _ => none

/-- `ChunkPool::getChunkStatus(chunk)`: `Unloaded` when unmapped, else the
slot's status field. -/
def ChunkPool.getChunkStatus (c : Chunk) (p : ChunkPool) : ChunkStatus :=
  match mapLookup p.chunkToLoaded c with
  | none => ChunkStatus.Unloaded
  | some poolIndex => p.status.getD poolIndex ChunkStatus.Unloaded

/-- `ChunkPool::setChunkStatus(chunk, s)`: return when unmapped, else store
`s` into the mapped slot's status field. -/
def ChunkPool.setChunkStatus (c : Chunk) (s : ChunkStatus) (p : ChunkPool) :
    ChunkPool :=
  match mapLookup p.chunkToLoaded c with
  | none => p
  | some poolIndex => { p with status := p.status.set poolIndex s }

/-- `ChunkPool::getPoolIndex(chunk)`. -/
def ChunkPool.getPoolIndex (c : Chunk) (p : ChunkPool) : Option Nat :=
  mapLookup p.chunkToLoaded c

/-- A structural pool operation: a `request` or an `unload` call. -/
inductive PoolOp where
  | req (c : Chunk)
  | unl (c : Chunk)
deriving DecidableEq

/-- Run a sequence of structural pool operations; `none` when an `unload`
performs an out-of-bounds access. -/
def runPoolOps (ops : List PoolOp) (p : ChunkPool) : Option ChunkPool :=
  match ops with
  | [] => some p
  | PoolOp.req c :: rest => runPoolOps rest (ChunkPool.request c p)
  | PoolOp.unl c :: rest =>
      match ChunkPool.unload c p with
      | none => none
      | some p2 => runPoolOps rest p2

/-- Checker for "every slot index is in exactly one of `loadable` and
`loaded`". -/
def slotPartitionB (p : ChunkPool) : Bool :=
  (List.range p.status.length).all fun i =>
    (decide (i ∈ p.loadable) && !(decide (i ∈ p.loaded))) ||
      (!(decide (i ∈ p.loadable)) && decide (i ∈ p.loaded))

/-- Checker for "a `coordinate → slot` map entry exists iff that slot is in
`loaded`". -/
def mapLoadedIffB (p : ChunkPool) : Bool :=
  (List.range p.status.length).all fun i =>
    (p.chunkToLoaded.any fun e => e.2 == i) == decide (i ∈ p.loaded)

/-- Checker for "`loaded[loadedIndex[s]] == s` for every loaded slot `s`"
(with an in-bounds `loadedIndex[s]`). -/
def loadedIndexConsistentB (p : ChunkPool) : Bool :=
  p.loaded.all fun s =>
    decide (p.loadedIndex.getD s 0 < p.loaded.length) &&
      decide (p.loaded.getD (p.loadedIndex.getD s 0) (p.status.length) = s)

/-- The structural pool invariant of the specification, as a decidable
checker. -/
def poolInvariantB (p : ChunkPool) : Bool :=
  slotPartitionB p && mapLoadedIffB p && loadedIndexConsistentB p

/-- `ChunkQueue::push(job)`: append to the back of the FIFO. -/
def ChunkQueue.push (job : Chunk) (jobs : List Chunk) : List Chunk :=
  jobs ++ [job]

/-- `ChunkQueue::pop(out, st)` (chunk_queue.hpp). The condition-variable
wait returns only once `st.stop_requested() || !jobs.empty()`; the outer
`none` models the call still blocking (stop not requested and the queue
empty). `some (none, jobs)` models the `return false` taken when stop is
requested and the queue is empty; `some (some c, rest)` models popping the
front of the FIFO. -/
def ChunkQueue.pop (stopRequested : Bool) (jobs : List Chunk) :
    Option (Option Chunk × List Chunk) :=
  if stopRequested ∧ jobs = [] then some (none, jobs)
  else
    match jobs with
    | [] => none
    | c :: rest => some (some c, rest)

/-- A TOC record (`struct ChunkTOC`): chunk coordinates and file offset. -/
structure ChunkTOC where
  chunkX : Int
  chunkZ : Int
  offset : Nat
deriving DecidableEq

/-- The `Chonker` orchestrator state (chonker.hpp): the pool, the job queue
contents, and the in-memory `fileOffsets` TOC map. -/
structure Chonker where
  pool : ChunkPool
  queue : List Chunk
  fileOffsets : List (Chunk × Nat)
deriving DecidableEq

/-- `Chonker::readOffsets()`: fold the TOC records read from the chunk file
into the `fileOffsets` map (`fileOffsets[chunk] = chunkTOC.offset`). -/
def readOffsets (records : List ChunkTOC) : List (Chunk × Nat) :=
  records.foldl (fun m r => mapInsert m ⟨r.chunkX, r.chunkZ⟩ r.offset) []

/-- `Chonker::Chonker(chunkPoolCapacity)`: fresh pool, empty queue,
`fileOffsets` loaded from the TOC records of the chunk file. -/
def Chonker.init (chunkPoolCapacity : Nat) (records : List ChunkTOC) :
    Chonker :=
  { pool := ChunkPool.init chunkPoolCapacity
    queue := []
    fileOffsets := readOffsets records }

/-- `Chonker::request(c)`: return when `c.x < 0 or c.z < 0`; otherwise call
`pool.request(c)` and then unconditionally `queue.push(c)` (the source does
not consult the pool's outcome before pushing). -/
def Chonker.request (c : Chunk) (st : Chonker) : Chonker :=
  if c.x < 0 ∨ c.z < 0 then st
  else
    { st with
      pool := ChunkPool.request c st.pool
      queue := ChunkQueue.push c st.queue }

/-- `Chonker::getStatus(c)`: delegates to `pool.getChunkStatus(c)`. -/
def Chonker.getStatus (c : Chunk) (st : Chonker) : ChunkStatus :=
  ChunkPool.getChunkStatus c st.pool

/-- Bytes requested by the worker's read:
`sizeof(int16_t) * data.heights.size()` = `2 * numSamples`. -/
def bytesRequested : Nat := 2 * numSamples

/-- Reassemble a little-endian signed 32-bit value from four bytes (the
in-memory representation of a `core::i32` array element). -/
def i32FromBytes (b0 b1 b2 b3 : Int) : Int :=
  let u := b0 + 256 * b1 + 65536 * b2 + 16777216 * b3
  if u < 2147483648 then u else u - 4294967296

/-- Byte `i` of the little-endian in-memory representation of the `heights`
array (used for the bytes the read did not overwrite). -/
def byteOfHeights (old : List Int) (i : Nat) : Int :=
  ((old.getD (i / 4) 0).emod 4294967296) / ((256 : Int) ^ (i % 4)) % 256

/-- The effect of `fin.read(reinterpret_cast<char*>(data.heights.data()),
sizeof(int16_t) * data.heights.size())` after `fin.seekg(offset)`: the
stream delivers `min delivered bytesRequested` bytes taken from the file at
`offset` (fewer than requested on a short read, zero when the open or seek
failed), which overwrite the first bytes of the 4-byte-per-element
`heights` array; the remaining bytes keep their old values. -/
def readHeights (file : Nat → Int) (offset delivered : Nat)
    (old : List Int) : List Int :=
  (List.range numSamples).map fun k =>
    let byteAt := fun i =>
      if i < min delivered bytesRequested then file (offset + i)
      else byteOfHeights old i
    i32FromBytes (byteAt (4 * k)) (byteAt (4 * k + 1))
      (byteAt (4 * k + 2)) (byteAt (4 * k + 3))

/-- The body of `Chonker::worker` for one dequeued coordinate `c`
(chonker.hpp, the loop body after `queue.pop`): resolve `c`'s pool index
(`none` models the `assert(false)` when it is absent), take the slot's
`ChunkData`, resolve the file offset via `fileOffsets.at(data.chunk)` —
note the source keys the lookup on the slot's stored `data.chunk` field,
not on `c` (`none` models the `at` throw on a missing key) — read into the
slot's heights, then `pool.setChunkStatus(c, Loaded)` with no check of the
read result. `file` gives the bytes of `assets/N40W106.chunk`; `delivered`
is the number of bytes the stream actually delivered. -/
def Chonker.workerStep (file : Nat → Int) (delivered : Nat) (c : Chunk)
    (st : Chonker) : Option Chonker :=
  match ChunkPool.getPoolIndex c st.pool with
  | none => none
  | some poolIndex =>
      match st.pool.pool.get? poolIndex with
      | none => none
      | some data =>
          match mapLookup st.fileOffsets data.chunk with
          | none => none
          | some offset =>
              let newData :=
                { data with
                  heights := readHeights file offset delivered data.heights }
              let poolWritten :=
                { st.pool with pool := st.pool.pool.set poolIndex newData }
              some { st with
                pool := ChunkPool.setChunkStatus c ChunkStatus.Loaded
                  poolWritten }

/-- Run a sequence of `Chonker::request` calls. -/
def Chonker.runRequests (cs : List Chunk) (st : Chonker) : Chonker :=
  cs.foldl (fun s c => Chonker.request c s) st

/-- Run a sequence of `ChunkPool::request` calls. -/
def requestAll (cs : List Chunk) (p : ChunkPool) : ChunkPool :=
  cs.foldl (fun s c => ChunkPool.request c s) p

/-! Helper lemmas about the map model and list operations. -/

lemma mapLookup_mapInsert (m : List (Chunk × Nat)) (k2 k : Chunk) (v : Nat) :
    mapLookup (mapInsert m k2 v) k =
      if k2 = k then some v else mapLookup m k := by
  induction m with
  | nil => simp [mapInsert, mapLookup]
  | cons e rest ih =>
      obtain ⟨ek, ev⟩ := e
      simp only [mapInsert]
      by_cases h1 : ek = k2
      · subst h1
        by_cases h2 : ek = k
        · simp [mapLookup, h2]
        · simp [mapLookup, h2]
      · simp only [if_neg h1, mapLookup]
        by_cases h2 : ek = k
        · have h3 : ¬ (k2 = k) := fun hh => h1 (h2.trans hh.symm)
          simp [h2, h3]
        · simp [h2, ih]

lemma getD_set_self {α : Type} (l : List α) (i : Nat) (a d : α)
    (h : i < l.length) : (l.set i a).getD i d = a := by
  induction l generalizing i with
  | nil => simp at h
  | cons x xs ih =>
      cases i with
      | zero => simp
      | succ j =>
          simp only [List.set, List.getD, List.get?]
          exact ih j (by simpa using h)

lemma requestAll_cons (c : Chunk) (cs : List Chunk) (p : ChunkPool) :
    requestAll (c :: cs) p = requestAll cs (ChunkPool.request c p) := by
  simp [requestAll]

lemma requestAll_lengths (cs : List Chunk) (p : ChunkPool)
    (h : cs.length ≤ p.loadable.length) :
    (requestAll cs p).loadable.length = p.loadable.length - cs.length
      ∧ (requestAll cs p).loaded.length = p.loaded.length + cs.length := by
  induction cs generalizing p with
  | nil => simp [requestAll]
  | cons c rest ih =>
      have hne : p.loadable ≠ [] := by
        intro hh
        rw [hh] at h
        simp at h
      rw [requestAll_cons]
      cases hlast : p.loadable.getLast? with
      | none => exact absurd (List.getLast?_eq_none_iff.mp hlast) hne
      | some last =>
          have hreq : (ChunkPool.request c p).loadable = p.loadable.dropLast
              ∧ (ChunkPool.request c p).loaded = p.loaded ++ [last] := by
            unfold ChunkPool.request
            rw [hlast]
            exact ⟨rfl, rfl⟩
          have e1 : (ChunkPool.request c p).loadable.length =
              p.loadable.length - 1 := by
            rw [hreq.1, List.length_dropLast]
          have e2 : (ChunkPool.request c p).loaded.length =
              p.loaded.length + 1 := by
            rw [hreq.2]
            simp
          have hlen : rest.length ≤ (ChunkPool.request c p).loadable.length := by
            rw [e1]
            have := h
            simp only [List.length_cons] at this
            omega
          obtain ⟨ih1, ih2⟩ := ih (ChunkPool.request c p) hlen
          simp only [List.length_cons] at h ⊢
          omega

lemma requestAll_lookup_mem (cs : List Chunk) (p : ChunkPool) (k : Chunk)
    (h : mapLookup (requestAll cs p).chunkToLoaded k ≠ none) :
    mapLookup p.chunkToLoaded k ≠ none ∨ k ∈ cs := by
  induction cs generalizing p with
  | nil =>
      simp only [requestAll, List.foldl_nil] at h
      exact Or.inl h
  | cons c rest ih =>
      rw [requestAll_cons] at h
      rcases ih (ChunkPool.request c p) h with hl | hr
      · unfold ChunkPool.request at hl
        cases hlast : p.loadable.getLast? with
        | none =>
            rw [hlast] at hl
            exact Or.inl hl
        | some idx =>
            rw [hlast] at hl
            simp only at hl
            rw [mapLookup_mapInsert] at hl
            by_cases hck : c = k
            · exact Or.inr (by simp [hck])
            · rw [if_neg hck] at hl
              exact Or.inl hl
      · exact Or.inr (List.mem_cons_of_mem c hr)

/-! Claim theorems. -/

/-- Claim C1 (code bug): the structural pool invariant does not survive
every sequence of `request`/`unload` calls. On a capacity-3 pool, after
`request (0,0)`, `request (0,1)`, `request (0,2)` and `unload (0,1)` —
all accesses in bounds — the free-list is `[1]` while the loaded list is
`[1, 2]`: slot 1 is in both lists, slot 0 (still mapped to `(0,2)`) is in
neither, and the invariant checker reports failure. The cause is that
`unload` swaps `loaded[ldIndex]` with `loaded[prevIndex]`, where
`prevIndex` is the pool index stored in `loaded.back()`, not the last
position of `loaded`, contradicting the code's own comment. -/
theorem c1_unload_breaks_pool_invariant :
    (runPoolOps
        [PoolOp.req ⟨0, 0⟩, PoolOp.req ⟨0, 1⟩, PoolOp.req ⟨0, 2⟩,
          PoolOp.unl ⟨0, 1⟩]
        (ChunkPool.init 3)).map
        (fun p => (p.loadable, p.loaded, poolInvariantB p))
      = some ([1], [1, 2], false) := by
  decide

/-- Claim C2 (code bug): `ChunkPool::request` performs no already-mapped
check, so a second `request` of the same coordinate is not a no-op. On a
capacity-2 pool, the first `request (0,0)` maps `(0,0)` to slot 1 and
leaves `[0]` on the free-list; the repeated `request (0,0)` consumes the
remaining free slot, remaps `(0,0)` to slot 0, and appends a second entry
to the loaded list (`[1, 0]`), orphaning slot 1. -/
theorem c2_double_request_not_idempotent :
    (ChunkPool.request ⟨0, 0⟩ (ChunkPool.init 2)).loadable = [0]
      ∧ ChunkPool.getPoolIndex ⟨0, 0⟩
          (ChunkPool.request ⟨0, 0⟩ (ChunkPool.init 2)) = some 1
      ∧ (ChunkPool.request ⟨0, 0⟩
          (ChunkPool.request ⟨0, 0⟩ (ChunkPool.init 2))).loadable = []
      ∧ ChunkPool.getPoolIndex ⟨0, 0⟩
          (ChunkPool.request ⟨0, 0⟩
            (ChunkPool.request ⟨0, 0⟩ (ChunkPool.init 2))) = some 0
      ∧ (ChunkPool.request ⟨0, 0⟩
          (ChunkPool.request ⟨0, 0⟩ (ChunkPool.init 2))).loaded = [1, 0] := by
  decide

/-- Claim C3 (code bug): `Chonker::request` pushes the coordinate onto the
job queue even when the pool rejected the reservation. On a Chonker whose
pool has capacity 0, `request (0,0)` leaves the status `Unloaded` (the
pool part of the claim) but the queue ends as `[(0,0)]` rather than empty,
and the worker step that later pops the coordinate hits the
`assert(false)` branch (modelled as `none`) because the coordinate has no
pool index. -/
theorem c3_rejected_request_still_enqueued :
    (Chonker.request ⟨0, 0⟩ (Chonker.init 0 [⟨0, 0, 0⟩])).queue = [⟨0, 0⟩]
      ∧ Chonker.getStatus ⟨0, 0⟩
          (Chonker.request ⟨0, 0⟩ (Chonker.init 0 [⟨0, 0, 0⟩]))
        = ChunkStatus.Unloaded
      ∧ Chonker.workerStep (fun _ => 0) bytesRequested ⟨0, 0⟩
          (Chonker.request ⟨0, 0⟩ (Chonker.init 0 [⟨0, 0, 0⟩])) = none := by
  decide

/-- Claim C4 (code bug): the worker resolves the file offset via
`fileOffsets.at(data.chunk)`, where `data.chunk` is the slot's stored
coordinate — a field no code path ever assigns, so it keeps its
value-initialized `(0,0)` — instead of the dequeued coordinate `c`. With
TOC `{(0,0) ↦ 100, (5,0) ↦ 200}` and file byte `i` equal to `i mod 256`,
processing the requested chunk `(5,0)` stores into sample 0 the value
`1734763876`, the four bytes at offsets 100..103 packed as one 32-bit
element (two 16-bit samples per `i32` array slot), rather than data from
`(5,0)`'s own offset 200 — while still marking the chunk `Loaded`. -/
theorem c4_worker_reads_wrong_offset :
    mapLookup (Chonker.request ⟨5, 0⟩
        (Chonker.init 1 [⟨0, 0, 100⟩, ⟨5, 0, 200⟩])).fileOffsets ⟨5, 0⟩
      = some 200
      ∧ (Chonker.workerStep (fun i => (i : Int) % 256) bytesRequested ⟨5, 0⟩
          (Chonker.request ⟨5, 0⟩
            (Chonker.init 1 [⟨0, 0, 100⟩, ⟨5, 0, 200⟩]))).map
          (fun st2 =>
            ((st2.pool.pool.getD 0 ChunkData.zeroInit).heights.getD 0 0,
              Chonker.getStatus ⟨5, 0⟩ st2))
        = some (1734763876, ChunkStatus.Loaded) := by
  decide

/-- Claim C5 (code bug): the round-trip `request`s followed by `unload` of
the most recent coordinate do not perform the claimed swap-with-last-and-pop.
On a capacity-3 pool, after `request (0,0)`, `request (0,1)`,
`request (0,2)` and `unload (0,2)`: `getStatus (0,2)` is `Unloaded` and the
freed slot 0 is back on the free-list (these parts of the claim hold), but
the loaded list ends as `[0, 1]` — keeping the freed slot 0 and dropping
slot 2, which is still mapped to `(0,0)` — instead of the swap-with-last
result `[2, 1]`, and the invariant checker reports failure. -/
theorem c5_unload_not_swap_with_last :
    (runPoolOps
        [PoolOp.req ⟨0, 0⟩, PoolOp.req ⟨0, 1⟩, PoolOp.req ⟨0, 2⟩,
          PoolOp.unl ⟨0, 2⟩]
        (ChunkPool.init 3)).map
        (fun p =>
          (p.loaded, p.loadable, mapLookup p.chunkToLoaded ⟨0, 0⟩,
            ChunkPool.getChunkStatus ⟨0, 2⟩ p, poolInvariantB p))
      = some ([0, 1], [0], some 2, ChunkStatus.Unloaded, false) := by
  decide

/-- Claim C7 (confirmed): `ChunkQueue::pop` returns no chunk exactly when
stop has been requested and the queue is empty; otherwise it removes and
returns the front (oldest pushed) element, even while stop is requested;
pushing `a`, `b`, `c` and popping three times yields `a`, `b`, `c`. -/
theorem c7_pop_fifo_and_cancellation :
    (∀ (st : Bool) (jobs : List Chunk),
        ChunkQueue.pop st jobs = some (none, jobs) ↔
          st = true ∧ jobs = [])
      ∧ (∀ (st : Bool) (c : Chunk) (rest : List Chunk),
          ChunkQueue.pop st (c :: rest) = some (some c, rest))
      ∧ (∀ (st : Bool) (a b c : Chunk),
          ChunkQueue.pop st
              (ChunkQueue.push c (ChunkQueue.push b (ChunkQueue.push a [])))
              = some (some a, [b, c])
            ∧ ChunkQueue.pop st [b, c] = some (some b, [c])
            ∧ ChunkQueue.pop st [c] = some (some c, [])) := by
  refine ⟨?_, ?_, ?_⟩
  · intro st jobs
    cases st <;> cases jobs <;> simp [ChunkQueue.pop]
  · intro st c rest
    cases st <;> simp [ChunkQueue.pop]
  · intro st a b c
    cases st <;> simp [ChunkQueue.pop, ChunkQueue.push]

/-- Witness for claim C7 at concrete inputs. -/
theorem c7_pop_fifo_and_cancellation_wit :
    ChunkQueue.pop true [] = some (none, [])
      ∧ ChunkQueue.pop true [⟨1, 2⟩] = some (some ⟨1, 2⟩, []) :=
  ⟨(c7_pop_fifo_and_cancellation.1 true []).mpr ⟨rfl, rfl⟩,
    c7_pop_fifo_and_cancellation.2.1 true ⟨1, 2⟩ []⟩

/-- Claim C10 (confirmed): `ChunkPool::setChunkStatus` on a coordinate with
no `coordinate → slot` mapping leaves the entire pool state unchanged. -/
theorem c10_set_status_unmapped_noop (p : ChunkPool) (c : Chunk)
    (s : ChunkStatus) (h : mapLookup p.chunkToLoaded c = none) :
    ChunkPool.setChunkStatus c s p = p := by
  unfold ChunkPool.setChunkStatus
  rw [h]

/-- Witness for claim C10 at a concrete input. -/
theorem c10_set_status_unmapped_noop_wit :
    mapLookup (ChunkPool.init 1).chunkToLoaded ⟨3, 4⟩ = none
      ∧ ChunkPool.setChunkStatus ⟨3, 4⟩ ChunkStatus.Loaded (ChunkPool.init 1)
        = ChunkPool.init 1 :=
  ⟨rfl, c10_set_status_unmapped_noop (ChunkPool.init 1) ⟨3, 4⟩
    ChunkStatus.Loaded rfl⟩

/-- Claim C6 (confirmed): on a capacity-`n` pool, after `n` distinct
requests (each successful: the free-list pops one entry per request), a
further request of a coordinate not among them is a complete no-op — the
state is unchanged, the loaded list stays at size `n`, and `getChunkStatus`
of the rejected coordinate is `Unloaded`. -/
theorem c6_capacity_exhaustion (n : Nat) (coords : List Chunk) (d : Chunk)
    (hlen : coords.length = n) (hnodup : coords.Nodup) (hd : d ∉ coords) :
    ChunkPool.request d (requestAll coords (ChunkPool.init n))
        = requestAll coords (ChunkPool.init n)
      ∧ (requestAll coords (ChunkPool.init n)).loaded.length = n
      ∧ ChunkPool.getChunkStatus d (requestAll coords (ChunkPool.init n))
        = ChunkStatus.Unloaded := by
  have hbase : coords.length ≤ (ChunkPool.init n).loadable.length := by
    simp [ChunkPool.init, hlen]
  obtain ⟨h1, h2⟩ := requestAll_lengths coords (ChunkPool.init n) hbase
  have hempty : (requestAll coords (ChunkPool.init n)).loadable = [] := by
    have : (requestAll coords (ChunkPool.init n)).loadable.length = 0 := by
      rw [h1]
      simp [ChunkPool.init, hlen]
    exact List.eq_nil_of_length_eq_zero this
  refine ⟨?_, ?_, ?_⟩
  · unfold ChunkPool.request
    rw [hempty]
    rfl
  · rw [h2]
    simp [ChunkPool.init, hlen]
  · unfold ChunkPool.getChunkStatus
    cases hl : mapLookup (requestAll coords (ChunkPool.init n)).chunkToLoaded d
      with
    | none => rfl
    | some i =>
        exfalso
        have hmem := requestAll_lookup_mem coords (ChunkPool.init n) d
          (by rw [hl]; exact Option.noConfusion)
        rcases hmem with hnone | hin
        · exact hnone rfl
        · exact hd hin

/-- Witness for claim C6 at a concrete input: capacity 2, requests of
`(0,0)` and `(0,1)`, then a request of `(5,5)`. -/
theorem c6_capacity_exhaustion_wit :
    (([(⟨0, 0⟩ : Chunk), ⟨0, 1⟩].length = 2
        ∧ [(⟨0, 0⟩ : Chunk), ⟨0, 1⟩].Nodup
        ∧ (⟨5, 5⟩ : Chunk) ∉ [(⟨0, 0⟩ : Chunk), ⟨0, 1⟩])
      ∧ (ChunkPool.request ⟨5, 5⟩
            (requestAll [⟨0, 0⟩, ⟨0, 1⟩] (ChunkPool.init 2))
            = requestAll [⟨0, 0⟩, ⟨0, 1⟩] (ChunkPool.init 2)
          ∧ (requestAll [⟨0, 0⟩, ⟨0, 1⟩] (ChunkPool.init 2)).loaded.length = 2
          ∧ ChunkPool.getChunkStatus ⟨5, 5⟩
              (requestAll [⟨0, 0⟩, ⟨0, 1⟩] (ChunkPool.init 2))
            = ChunkStatus.Unloaded)) :=
  ⟨⟨by decide, by decide, by decide⟩,
    c6_capacity_exhaustion 2 [⟨0, 0⟩, ⟨0, 1⟩] ⟨5, 5⟩ (by decide) (by decide)
      (by decide)⟩

/-- Claim C8 (confirmed): for any coordinate the worker dequeues that has a
pool slot (and whose slot coordinate field resolves in the in-memory TOC
map), the worker step ends with that coordinate's status `Loaded` for
every possible read outcome — `delivered = 0` (missing file / failed open)
and any short read included; no distinct failure status exists. -/
theorem c8_read_result_not_checked (file : Nat → Int) (delivered : Nat)
    (c : Chunk) (st : Chonker) (i : Nat) (data : ChunkData) (off : Nat)
    (h1 : ChunkPool.getPoolIndex c st.pool = some i)
    (h2 : st.pool.pool.get? i = some data)
    (h3 : mapLookup st.fileOffsets data.chunk = some off)
    (h4 : i < st.pool.status.length) :
    (Chonker.workerStep file delivered c st).map
        (fun st2 => Chonker.getStatus c st2)
      = some ChunkStatus.Loaded := by
  have h1a : mapLookup st.pool.chunkToLoaded c = some i := h1
  simp only [Chonker.workerStep, h1, h2, h3, Option.map_some',
    Chonker.getStatus, ChunkPool.getChunkStatus, ChunkPool.setChunkStatus,
    h1a]
  exact congrArg some
    (getD_set_self st.pool.status i ChunkStatus.Loaded ChunkStatus.Unloaded h4)

/-- Witness for claim C8 at a concrete input: capacity-1 Chonker with TOC
entry `(0,0) ↦ 8`, coordinate `(0,0)` requested, zero bytes delivered. -/
theorem c8_read_result_not_checked_wit :
    (ChunkPool.getPoolIndex ⟨0, 0⟩
          (Chonker.request ⟨0, 0⟩ (Chonker.init 1 [⟨0, 0, 8⟩])).pool = some 0
        ∧ (Chonker.request ⟨0, 0⟩ (Chonker.init 1 [⟨0, 0, 8⟩])).pool.pool.get?
            0 = some ChunkData.zeroInit
        ∧ mapLookup
            (Chonker.request ⟨0, 0⟩ (Chonker.init 1 [⟨0, 0, 8⟩])).fileOffsets
            ChunkData.zeroInit.chunk = some 8
        ∧ 0 < (Chonker.request ⟨0, 0⟩
            (Chonker.init 1 [⟨0, 0, 8⟩])).pool.status.length)
      ∧ (Chonker.workerStep (fun _ => 0) 0 ⟨0, 0⟩
          (Chonker.request ⟨0, 0⟩ (Chonker.init 1 [⟨0, 0, 8⟩]))).map
          (fun st2 => Chonker.getStatus ⟨0, 0⟩ st2)
        = some ChunkStatus.Loaded :=
  ⟨⟨rfl, rfl, rfl, by decide⟩,
    c8_read_result_not_checked (fun _ => 0) 0 ⟨0, 0⟩
      (Chonker.request ⟨0, 0⟩ (Chonker.init 1 [⟨0, 0, 8⟩])) 0
      ChunkData.zeroInit 8 rfl rfl rfl (by decide)⟩

/-- Every coordinate mapped in the pool of a Chonker reached from a fresh
Chonker by a sequence of `request` calls has non-negative components. -/
lemma runRequests_keys_nonneg (cs : List Chunk) (st : Chonker)
    (hst : ∀ k : Chunk, mapLookup st.pool.chunkToLoaded k ≠ none →
      0 ≤ k.x ∧ 0 ≤ k.z) :
    ∀ k : Chunk,
      mapLookup (Chonker.runRequests cs st).pool.chunkToLoaded k ≠ none →
        0 ≤ k.x ∧ 0 ≤ k.z := by
  induction cs generalizing st with
  | nil => exact fun k h => hst k h
  | cons c rest ih =>
      have hstep : ∀ k : Chunk,
          mapLookup (Chonker.request c st).pool.chunkToLoaded k ≠ none →
            0 ≤ k.x ∧ 0 ≤ k.z := by
        intro k hk
        unfold Chonker.request at hk
        by_cases hc : c.x < 0 ∨ c.z < 0
        · rw [if_pos hc] at hk
          exact hst k hk
        · rw [if_neg hc] at hk
          unfold ChunkPool.request at hk
          cases hlast : st.pool.loadable.getLast? with
          | none =>
              rw [hlast] at hk
              exact hst k hk
          | some idx =>
              rw [hlast] at hk
              simp only at hk
              rw [mapLookup_mapInsert] at hk
              by_cases hck : c = k
              · subst hck
                push_neg at hc
                exact hc
              · rw [if_neg hck] at hk
                exact hst k hk
      have hfold : Chonker.runRequests (c :: rest) st
          = Chonker.runRequests rest (Chonker.request c st) := by
        simp [Chonker.runRequests]
      rw [hfold]
      exact ih (Chonker.request c st) hstep

/-- Claim C9 (confirmed): for a coordinate with a negative component, the
orchestrator's `request` is a complete no-op on any state reached from a
fresh Chonker by `request` calls — nothing changes (no slot reserved,
nothing enqueued) and `getStatus` of that coordinate is `Unloaded`. -/
theorem c9_negative_request_noop (n : Nat) (recs : List ChunkTOC)
    (reqs : List Chunk) (c : Chunk) (hc : c.x < 0 ∨ c.z < 0) :
    Chonker.request c (Chonker.runRequests reqs (Chonker.init n recs))
        = Chonker.runRequests reqs (Chonker.init n recs)
      ∧ Chonker.getStatus c (Chonker.runRequests reqs (Chonker.init n recs))
        = ChunkStatus.Unloaded := by
  constructor
  · unfold Chonker.request
    rw [if_pos hc]
  · unfold Chonker.getStatus ChunkPool.getChunkStatus
    cases hl : mapLookup
        (Chonker.runRequests reqs (Chonker.init n recs)).pool.chunkToLoaded c
      with
    | none => rfl
    | some i =>
        exfalso
        have hbase : ∀ k : Chunk,
            mapLookup (Chonker.init n recs).pool.chunkToLoaded k ≠ none →
              0 ≤ k.x ∧ 0 ≤ k.z := by
          intro k h
          exact absurd rfl h
        have hnn := runRequests_keys_nonneg reqs (Chonker.init n recs) hbase c
          (by rw [hl]; exact Option.noConfusion)
        rcases hc with h | h
        · exact absurd hnn.1 (not_le_of_lt h)
        · exact absurd hnn.2 (not_le_of_lt h)

/-- Witness for claim C9 at a concrete input: capacity 1, empty TOC, one
prior request of `(0,0)`, then a request of `(-1,0)`. -/
theorem c9_negative_request_noop_wit :
    ((⟨-1, 0⟩ : Chunk).x < 0 ∨ (⟨-1, 0⟩ : Chunk).z < 0)
      ∧ Chonker.request ⟨-1, 0⟩
          (Chonker.runRequests [⟨0, 0⟩] (Chonker.init 1 []))
        = Chonker.runRequests [⟨0, 0⟩] (Chonker.init 1 [])
      ∧ Chonker.getStatus ⟨-1, 0⟩
          (Chonker.runRequests [⟨0, 0⟩] (Chonker.init 1 []))
        = ChunkStatus.Unloaded := by
  have h := c9_negative_request_noop 1 [] [⟨0, 0⟩] ⟨-1, 0⟩
    (Or.inl (by decide))
  exact ⟨Or.inl (by decide), h.1, h.2⟩

end DeusVulkan
